import Mathlib

/-!
Verification of the availability-resolution core of the
recreation-gov-campsite-checker script (`camping.py`).

Dates are embedded by their proleptic-Gregorian day ordinals
(`datetime.toordinal`), as integers.  The script moves dates around as ISO
strings, but `strptime`/`strftime` with the fixed formats used there are
mutually inverse bijections between well-formed date strings and ordinals, so
every string-set membership test and every string list in the source
corresponds one-to-one to the ordinal-level operation used here.  Site ids are
decimal strings in the API and are converted with `int(site)` before being
reported; we embed them directly as naturals.  Python dicts are embedded as
insertion-ordered association lists, Python lists as Lean lists.
-/

instance {ε α : Type} [DecidableEq ε] [DecidableEq α] : DecidableEq (Except ε α) :=
  fun a b =>
    match a, b with
    | Except.ok x, Except.ok y =>
      if h : x = y then isTrue (by rw [h]) else isFalse (by intro hc; cases hc; exact h rfl)
    | Except.error x, Except.error y =>
      if h : x = y then isTrue (by rw [h]) else isFalse (by intro hc; cases hc; exact h rfl)
    | Except.ok _, Except.error _ => isFalse (by intro hc; cases hc)
    | Except.error _, Except.ok _ => isFalse (by intro hc; cases hc)

/-- Ordinal of the proleptic-Gregorian date 1900-01-01, i.e.
`datetime(1900, 1, 1).toordinal()`. -/
def ordinal19000101 : Int := 693596

/-- Models `datetime.strptime(str(nights), "%d").toordinal()` (camping.py line
215).  Parsing a bare day-of-month succeeds exactly for values 1..31 (year and
month default to 1900-01), giving the ordinal of 1900-01-`nights`; any other
value raises `ValueError`, which we model as `none`. -/
def strptimeDayOrdinal (nights : Int) : Option Int :=
  if 1 ≤ nights ∧ nights ≤ 31 then some (ordinal19000101 + nights - 1) else none

/-- Models `list(list(g) for _, g in groupby(ordinal_dates, lambda x: x - next(c)))`
(camping.py lines 214-218): `groupby` groups maximal blocks of adjacent
elements whose key `x_i - i` is constant, i.e. it cuts the list exactly
between positions where the next element is not the previous plus one. -/
def consective_ranges : List Int → List (List Int)
  | [] => []
  | [x] => [[x]]
  | x :: y :: rest =>
    match consective_ranges (y :: rest) with
    | [] => [[x]]
    | g :: gs => if y = x + 1 then (x :: g) :: gs else [x] :: g :: gs

/-- Embedding of `consecutive_nights(available, nights)` (camping.py lines
202-235).  `available` holds the ordinals of the date strings, in list order
(the source never sorts them).  The `strptime` trick on `str(nights)` raises
for `nights` outside 1..31 (`Except.error`).  Each surviving run `r` emits a
pair `(r[start_index], r[start_index + nights])` for
`start_index in range(0, len(r) - nights)`; the guard `r[0] < nights_ordinal`
reproduces the source comparison of the run's first date ordinal against the
1900-based ordinal of `nights`. -/
def consecutive_nights (available : List Int) (nights : Int) :
    Except String (List (Int × Int)) :=
  match strptimeDayOrdinal nights with
  | none => Except.error "ValueError"
  | some nights_ordinal =>
    Except.ok ((consective_ranges available).foldl (fun acc r =>
      if r.headI < nights_ordinal then acc
      else acc ++ (List.range (r.length - nights.toNat)).map
        (fun start_index => (r.getD start_index 0, r.getD (start_index + nights.toNat) 0)))
      [])

/-- The set `dates` built in `get_num_available_sites` (camping.py lines
167-169): `end_date - timedelta(days=i)` for `i in range(1, num_days + 1)`,
i.e. every ordinal of the half-open window `[start_date, end_date)`. -/
def windowDates (start_date end_date : Int) : List Int :=
  (List.range (end_date - start_date).toNat).map (fun i => end_date - (i + 1))

/-- The night-count clamping of camping.py lines 171-173:
`if nights not in range(1, num_days + 1): nights = num_days`.
`nights` is `none` when the caller passed `nights=None`. -/
def effectiveNights (nights : Option Int) (num_days : Int) : Int :=
  match nights with
  | some n => if 1 ≤ n ∧ n ≤ num_days then n else num_days
  | none => num_days

/-- One iteration of the per-site loop of `get_num_available_sites`
(camping.py lines 175-197) for the site `p`: filter the site's availability
list down to the query window, skip the site when nothing is left
(`if not desired_available: continue`), otherwise run `consecutive_nights`.
Returns whether the site counts as available together with its qualifying
ranges tagged with the site id. -/
def siteRangesResult (dates : List Int) (nights : Int) (p : Nat × List Int) :
    Except String (Bool × List (Nat × Int × Int)) :=
  if (p.2.filter (fun d => dates.contains d)).isEmpty then Except.ok (false, [])
  else Except.map (fun acr => (!acr.isEmpty, acr.map (fun r => (p.1, r.1, r.2))))
    (consecutive_nights (p.2.filter (fun d => dates.contains d)) nights)

/-- Whether `siteRangesResult` marks the site available (at least one
qualifying range); `false` also when the range finder raises. -/
def siteQualifiesB (dates : List Int) (nights : Int) (p : Nat × List Int) : Bool :=
  match siteRangesResult dates nights p with
  | Except.ok (q, _) => q
  | Except.error _ => false

/-- The accumulation over the sites of `park_information` (camping.py lines
175-197), threading `num_available` and `availabilities_filtered` and
propagating the exception of `consecutive_nights`. -/
def sitesFold (dates : List Int) (nights : Int) :
    List (Nat × List Int) → Nat × List (Nat × Int × Int) →
    Except String (Nat × List (Nat × Int × Int))
  | [], acc => Except.ok acc
  | p :: rest, acc =>
    match siteRangesResult dates nights p with
    | Except.error e => Except.error e
    | Except.ok (q, rs) =>
      sitesFold dates nights rest (acc.1 + (if q then 1 else 0), acc.2 ++ rs)

/-- Embedding of `get_num_available_sites(park_information, start_date,
end_date, nights)` (camping.py lines 162-199).  `park_information` is the
per-site available-date dict as an association list; the result is
`(num_available, maximum, availabilities_filtered)`. -/
def get_num_available_sites (park_information : List (Nat × List Int))
    (start_date end_date : Int) (nights : Option Int) :
    Except String (Nat × Nat × List (Nat × Int × Int)) :=
  Except.map (fun acc => (acc.1, park_information.length, acc.2))
    (sitesFold (windowDates start_date end_date)
      (effectiveNights nights (end_date - start_date)) park_information (0, []))

/-- One site entry of a monthly calendar document:
`campsite_type` together with the `availabilities` mapping (date ordinal to
availability string). -/
abbrev SiteData := String × List (Int × String)

/-- A monthly calendar document: `month_data["campsites"]` as an association
list from site id to its entry. -/
abbrev MonthDoc := List (Nat × SiteData)

/-- Models `a = data.setdefault(campsite_id, []); if available: a += available`
(camping.py lines 143-151) on an insertion-ordered dict: append `v` to the
entry of `k`, inserting `(k, [])`-then-extend (i.e. `(k, v)`) at the end when
`k` is absent.  Appending the empty list leaves an absent key bound to `[]`,
exactly as `setdefault` does. -/
def setdefault_append : List (Nat × List Int) → Nat → List Int → List (Nat × List Int)
  | [], k, v => [(k, v)]
  | p :: rest, k, v =>
    if p.1 = k then (p.1, p.2 ++ v) :: rest else p :: setdefault_append rest k v

/-- The dates retained from one site entry of one monthly document
(camping.py lines 142-149): keep a date iff its value is `"Available"` and
the optional `campsite_type` filter is unset or matches the entry's type. -/
def availableDates (campsite_type : Option String) (sd : SiteData) : List Int :=
  (sd.2.filter (fun q =>
    q.2 == "Available" && (campsite_type == none || campsite_type == some sd.1))).map
    (fun q => q.1)

/-- The inner loop of camping.py lines 141-151: fold one monthly document into
the accumulated dict. -/
def processMonth (campsite_type : Option String)
    (data : List (Nat × List Int)) (month_data : MonthDoc) : List (Nat × List Int) :=
  month_data.foldl (fun d p => setdefault_append d p.1 (availableDates campsite_type p.2)) data

/-- Embedding of the aggregation loop of `get_park_information` (camping.py
lines 139-153): fold the fetched monthly documents, in order, into the
per-site available-date dict, starting from `data = {}`. -/
def get_park_information (campsite_type : Option String)
    (api_data : List MonthDoc) : List (Nat × List Int) :=
  api_data.foldl (processMonth campsite_type) []

/-- First-occurrence lookup in an association-list dict, with `[]` for an
absent site (a site absent from the dict contributes no dates). -/
def lookupList (s : Nat) : List (Nat × List Int) → List Int
  | [] => []
  | p :: rest => if p.1 = s then p.2 else lookupList s rest

/-- The dates site `s` contributes from one monthly document: the filtered
dates of every entry of the document carrying that site id, in order. -/
def monthContrib (campsite_type : Option String) (s : Nat) (m : MonthDoc) : List Int :=
  (m.filter (fun p => p.1 == s)).flatMap (fun p => availableDates campsite_type p.2)

/-- The key sequence produced by repeated `setdefault`: extend `ks` with each
new key in order, skipping keys already present. -/
def mergeKeys (ks : List Nat) (new : List Nat) : List Nat :=
  new.foldl (fun acc k => if k ∈ acc then acc else acc ++ [k]) ks

/-- A one-month, one-site document set used as a concrete witness input. -/
def docsEx : List MonthDoc :=
  [[(1, ("STANDARD", [(739768, "Available"), (739769, "Available")]))]]

/-- An HTTP response as `send_request` observes it: status code, `resp.text`,
and the parsed `resp.json()` body (abstract). -/
structure HttpResponse where
  status_code : Int
  text : String
  json : String
deriving DecidableEq

/-- Observable outcome of one `send_request` call: the returned JSON body or
the raised error (carrying the failing status code and text), together with
how many `requests.get` attempts were made and how many alert emails were
sent. -/
structure FetchOutcome where
  result : Except (Int × String) String
  attempts : Nat
  emails : Nat
deriving DecidableEq

/-- The retry loop of `send_request` (camping.py lines 82-98).  `responses k`
is the response of the `(k+1)`-st `requests.get`.  At each loop-condition
check, `tries` attempts have been made and the current response is
`responses (tries - 1)`; a loop iteration issues attempt `tries + 1` and, when
it also fails with `tries + 1 > 5`, sends one alert email and raises.  The
fuel argument only bounds the recursion; fuel 6 is enough for every execution
(the loop can check the condition at `tries = 1, ..., 6` only). -/
def sendRequestAux (responses : Nat → HttpResponse) : Nat → Nat → FetchOutcome
  | 0, tries => ⟨Except.error (0, "out of fuel"), tries, 0⟩
  | fuel + 1, tries =>
    if (responses (tries - 1)).status_code = 200 then
      ⟨Except.ok (responses (tries - 1)).json, tries, 0⟩
    else if (responses tries).status_code ≠ 200 ∧ tries + 1 > 5 then
      ⟨Except.error ((responses tries).status_code, (responses tries).text), tries + 1, 1⟩
    else
      sendRequestAux responses fuel (tries + 1)

/-- Embedding of `send_request(url, params)`: the initial `requests.get`
(attempt 1) followed by the retry loop. -/
def send_request (responses : Nat → HttpResponse) : FetchOutcome :=
  sendRequestAux responses 6 1

/-- A response sequence whose first five attempts fail and whose sixth
succeeds. -/
def exResponses : Nat → HttpResponse :=
  fun k => if k < 5 then ⟨503, "busy", "empty"⟩ else ⟨200, "", "month-data"⟩

/-- A response sequence that always fails. -/
def failResponses : Nat → HttpResponse :=
  fun _ => ⟨500, "down", "none"⟩

/-- The property the spec asserts of the run partition: `P` consists exactly
of the maximal consecutive blocks (`d[i+1] = d[i] + 1`) of the date list `l`
(given sorted ascending): the blocks concatenate back to `l`, each block is a
nonempty chain of successors, and no two adjacent blocks can be merged. -/
def isMaximalRunPartition (l : List Int) (P : List (List Int)) : Prop :=
  P.flatten = l ∧ (∀ r ∈ P, r ≠ [] ∧ List.Chain' (fun a b => b = a + 1) r) ∧
    List.Chain' (fun r1 r2 => r2.headI ≠ r1.getLastI + 1) P

/-- The first run produced from a nonempty list starts with the list's first
element. -/
theorem consective_ranges_cons (x : Int) (l : List Int) :
    ∃ t gs, consective_ranges (x :: l) = (x :: t) :: gs := by
  induction l generalizing x with
  | nil => exact ⟨[], [], rfl⟩
  | cons y rest ih =>
    obtain ⟨t, gs, h⟩ := ih y
    simp only [consective_ranges, h]
    by_cases hy : y = x + 1
    · exact ⟨y :: t, gs, by simp [hy]⟩
    · exact ⟨[], (y :: t) :: gs, by simp [hy]⟩

/-- The runs concatenate back to the input list: `groupby` partitions its
input. -/
theorem consective_ranges_flatten (l : List Int) :
    (consective_ranges l).flatten = l := by
  induction l with
  | nil => rfl
  | cons x xs ih =>
    cases xs with
    | nil => rfl
    | cons y rest =>
      obtain ⟨t, gs, h⟩ := consective_ranges_cons y rest
      rw [h] at ih
      simp only [consective_ranges, h]
      by_cases hy : y = x + 1 <;> simp_all

/-- Every run is nonempty and is a chain of successor days. -/
theorem consective_ranges_runs (l : List Int) :
    ∀ r ∈ consective_ranges l, r ≠ [] ∧ List.Chain' (fun a b => b = a + 1) r := by
  induction l with
  | nil => simp [consective_ranges]
  | cons x xs ih =>
    cases xs with
    | nil => simp [consective_ranges, List.chain'_singleton]
    | cons y rest =>
      obtain ⟨t, gs, h⟩ := consective_ranges_cons y rest
      rw [h] at ih
      simp only [consective_ranges, h]
      by_cases hy : y = x + 1
      · simp only [if_pos hy]
        intro r hr
        rcases List.mem_cons.mp hr with rfl | hmem
        · refine ⟨by simp, ?_⟩
          rw [List.chain'_cons]
          exact ⟨hy, (ih (y :: t) (List.mem_cons_self _ _)).2⟩
        · exact ih r (List.mem_cons_of_mem _ hmem)
      · simp only [if_neg hy]
        intro r hr
        rcases List.mem_cons.mp hr with rfl | hmem
        · exact ⟨by simp, List.chain'_singleton x⟩
        · exact ih r hmem

/-- The last element of a list with at least two elements is the last element
of its tail. -/
theorem getLastI_cons_cons (a b : Int) (t : List Int) :
    (a :: b :: t).getLastI = (b :: t).getLastI := by
  simp [List.getLastI_eq_getLast?]

/-- Adjacent runs cannot be merged: the head of the next run is never the
successor of the last element of the previous run (`groupby` cuts the list
exactly at non-successor positions). -/
theorem consective_ranges_gaps (l : List Int) :
    List.Chain' (fun r1 r2 => r2.headI ≠ r1.getLastI + 1) (consective_ranges l) := by
  induction l with
  | nil => simp [consective_ranges]
  | cons x xs ih =>
    cases xs with
    | nil => exact List.chain'_singleton _
    | cons y rest =>
      obtain ⟨t, gs, h⟩ := consective_ranges_cons y rest
      rw [h] at ih
      simp only [consective_ranges, h]
      by_cases hy : y = x + 1
      · simp only [if_pos hy]
        rw [List.chain'_cons'] at ih ⊢
        refine ⟨?_, ih.2⟩
        intro r hr
        have := ih.1 r hr
        rwa [getLastI_cons_cons]
      · simp only [if_neg hy]
        rw [List.chain'_cons]
        refine ⟨?_, ih⟩
        simpa using hy

/-- C1: evaluation of `consecutive_nights` at a 3-day run (2026-06-01,
2026-06-02, 2026-06-03; ordinals 739768..739770) with `nights = 2`.  The
claim predicts `L - nights + 1 = 2` qualifying ranges, one per start offset
`0 ≤ o ≤ L - nights`; the code's `range(0, len(r) - nights)` emits only
`L - nights = 1` range, dropping the final start offset whose checkout day is
the day after the run ends. -/
theorem consecutive_nights_off_by_one :
    consecutive_nights [739768, 739769, 739770] 2 = Except.ok [(739768, 739770)] ∧
      consecutive_nights [739768, 739769, 739770] 2 ≠
        Except.ok [(739768, 739770), (739769, 739771)] := by
  constructor <;> decide

/-- C2: evaluation of `get_num_available_sites` for a site available on every
day of a 5-day window (2026-06-01 to 2026-06-06, ordinals 739768..739773)
with requested `nights = 10`.  The nights count is indeed clamped to 5, but
the claimed single qualifying range `(window.start, window.end)` is not
produced: the run has length exactly `nights`, so `range(0, len(r) - nights)`
is empty and the site is reported unavailable with zero ranges. -/
theorem get_num_available_sites_clamped_full_window :
    get_num_available_sites [(100, [739768, 739769, 739770, 739771, 739772])]
        739768 739773 (some 10) = Except.ok (0, 1, []) ∧
      get_num_available_sites [(100, [739768, 739769, 739770, 739771, 739772])]
        739768 739773 (some 10) ≠ Except.ok (1, 1, [(100, 739768, 739773)]) := by
  constructor <;> decide

/-- C4 counterexample: the code never sorts the ordinals, so for an input
order other than ascending the computed runs are not the maximal consecutive
blocks of the date set.  The collection with ordinals
739770, 739771, 739768, 739769 (the four consecutive days 2026-06-03,
2026-06-04, 2026-06-01, 2026-06-02 in that order) has the single maximal
block 739768..739771, but the code splits it into two runs. -/
theorem consective_ranges_unsorted_counterexample :
    ([739770, 739771, 739768, 739769] : List Int).toFinset =
      ([739768, 739769, 739770, 739771] : List Int).toFinset ∧
      ¬ isMaximalRunPartition [739768, 739769, 739770, 739771]
        (consective_ranges [739770, 739771, 739768, 739769]) :=
  ⟨by decide, fun h => by have h1 := h.1; revert h1; decide⟩

/-- C4 (amended): `consecutive_nights` converts the window-filtered dates to
integer day-ordinals without sorting them; when the input collection is
already sorted ascending, the computed runs are exactly the maximal
consecutive blocks of the filtered date set. -/
theorem consective_ranges_maximal_of_sorted (l : List Int)
    (hs : List.Chain' (· < ·) l) :
    isMaximalRunPartition l (consective_ranges l) :=
  ⟨consective_ranges_flatten l, consective_ranges_runs l, consective_ranges_gaps l⟩

/-- Witness for C4's amended theorem at the sorted date list with ordinals
739768, 739769, 739771. -/
theorem consective_ranges_maximal_of_sorted_witness :
    isMaximalRunPartition [739768, 739769, 739771]
      (consective_ranges [739768, 739769, 739771]) :=
  consective_ranges_maximal_of_sorted _
    (by simp [List.chain'_cons, List.chain'_singleton])

/-- C5: for every `nights` outside 1..31 — in particular any value clamped to
a window longer than 31 days — the `strptime(str(nights), "%d")` trick raises,
so `consecutive_nights` never returns ranges for such a stay. -/
theorem consecutive_nights_raises_outside_1_31 (available : List Int) (nights : Int)
    (h : nights < 1 ∨ 31 < nights) :
    consecutive_nights available nights = Except.error "ValueError" := by
  have hs : strptimeDayOrdinal nights = none := by
    unfold strptimeDayOrdinal
    rw [if_neg]
    omega
  simp [consecutive_nights, hs]

/-- Witness for C5 at `nights = 32`. -/
theorem consecutive_nights_raises_outside_1_31_witness :
    consecutive_nights [739768] 32 = Except.error "ValueError" :=
  consecutive_nights_raises_outside_1_31 [739768] 32 (Or.inr (by norm_num))

/-- C6: clamping law — any requested `nights` strictly greater than the
window's day length produces results identical to requesting exactly the
window length. -/
theorem get_num_available_sites_clamping (park_information : List (Nat × List Int))
    (start_date end_date n : Int) (h : end_date - start_date < n) :
    get_num_available_sites park_information start_date end_date (some n) =
      get_num_available_sites park_information start_date end_date
        (some (end_date - start_date)) := by
  have he : effectiveNights (some n) (end_date - start_date) = end_date - start_date := by
    simp only [effectiveNights]
    rw [if_neg]
    omega
  have he2 : effectiveNights (some (end_date - start_date)) (end_date - start_date) =
      end_date - start_date := by
    simp only [effectiveNights]
    split <;> rfl
  unfold get_num_available_sites
  rw [he, he2]

/-- Witness for C6: a 2-day window with requested `nights = 5`. -/
theorem get_num_available_sites_clamping_witness :
    get_num_available_sites [(1, [739768])] 739768 739770 (some 5) =
      get_num_available_sites [(1, [739768])] 739768 739770 (some 2) := by
  have h := get_num_available_sites_clamping [(1, [739768])] 739768 739770 5 (by norm_num)
  simpa using h

/-- C7: the consecutive-run partition is exhaustive and disjoint — the runs
concatenate back to the filtered date list, and for a duplicate-free date
collection (the filtered dates come from a set) no date lies in two runs. -/
theorem consective_ranges_partition (l : List Int) (h : l.Nodup) :
    (consective_ranges l).flatten = l ∧
      List.Pairwise List.Disjoint (consective_ranges l) := by
  refine ⟨consective_ranges_flatten l, ?_⟩
  have hn : (consective_ranges l).flatten.Nodup := by
    rw [consective_ranges_flatten]
    exact h
  exact (List.nodup_flatten.mp hn).2

/-- Witness for C7 at the date list with ordinals 739768, 739770, 739771. -/
theorem consective_ranges_partition_witness :
    (consective_ranges [739768, 739770, 739771]).flatten = [739768, 739770, 739771] ∧
      List.Pairwise List.Disjoint (consective_ranges [739768, 739770, 739771]) :=
  consective_ranges_partition _ (by decide)

/-- One-step unfolding of the retry loop at the first condition check. -/
theorem sra1 (r : Nat → HttpResponse) :
    sendRequestAux r 6 1 =
      if (r 0).status_code = 200 then ⟨Except.ok (r 0).json, 1, 0⟩
      else if (r 1).status_code ≠ 200 ∧ 2 > 5 then
        ⟨Except.error ((r 1).status_code, (r 1).text), 2, 1⟩
      else sendRequestAux r 5 2 := rfl

/-- One-step unfolding of the retry loop at the second condition check. -/
theorem sra2 (r : Nat → HttpResponse) :
    sendRequestAux r 5 2 =
      if (r 1).status_code = 200 then ⟨Except.ok (r 1).json, 2, 0⟩
      else if (r 2).status_code ≠ 200 ∧ 3 > 5 then
        ⟨Except.error ((r 2).status_code, (r 2).text), 3, 1⟩
      else sendRequestAux r 4 3 := rfl

/-- One-step unfolding of the retry loop at the third condition check. -/
theorem sra3 (r : Nat → HttpResponse) :
    sendRequestAux r 4 3 =
      if (r 2).status_code = 200 then ⟨Except.ok (r 2).json, 3, 0⟩
      else if (r 3).status_code ≠ 200 ∧ 4 > 5 then
        ⟨Except.error ((r 3).status_code, (r 3).text), 4, 1⟩
      else sendRequestAux r 3 4 := rfl

/-- One-step unfolding of the retry loop at the fourth condition check. -/
theorem sra4 (r : Nat → HttpResponse) :
    sendRequestAux r 3 4 =
      if (r 3).status_code = 200 then ⟨Except.ok (r 3).json, 4, 0⟩
      else if (r 4).status_code ≠ 200 ∧ 5 > 5 then
        ⟨Except.error ((r 4).status_code, (r 4).text), 5, 1⟩
      else sendRequestAux r 2 5 := rfl

/-- One-step unfolding of the retry loop at the fifth condition check; this is
where the attempt ceiling can fire, after the sixth attempt. -/
theorem sra5 (r : Nat → HttpResponse) :
    sendRequestAux r 2 5 =
      if (r 4).status_code = 200 then ⟨Except.ok (r 4).json, 5, 0⟩
      else if (r 5).status_code ≠ 200 ∧ 6 > 5 then
        ⟨Except.error ((r 5).status_code, (r 5).text), 6, 1⟩
      else sendRequestAux r 1 6 := rfl

/-- One-step unfolding of the retry loop at the sixth condition check
(reached only when the sixth attempt succeeded). -/
theorem sra6 (r : Nat → HttpResponse) :
    sendRequestAux r 1 6 =
      if (r 5).status_code = 200 then ⟨Except.ok (r 5).json, 6, 0⟩
      else if (r 6).status_code ≠ 200 ∧ 7 > 5 then
        ⟨Except.error ((r 6).status_code, (r 6).text), 7, 1⟩
      else sendRequestAux r 0 7 := rfl

/-- C3 counterexample: `send_request` does not stop at 5 attempts.  When the
first five responses fail and the sixth succeeds, the code issues a sixth
`requests.get` and returns its body, so the total attempt count is 6. -/
theorem send_request_six_attempts_counterexample :
    send_request exResponses = ⟨Except.ok "month-data", 6, 0⟩ ∧
      ¬ (send_request exResponses).attempts ≤ 5 := by
  constructor <;> decide

/-- C3 (amended): `send_request` performs at most 6 total HTTP attempts; if
the first six attempts all fail it sends exactly one alert email and raises
an error carrying the last failing response, and otherwise it returns the
parsed JSON body of the first successful attempt, with no alert. -/
theorem send_request_retry_contract (r : Nat → HttpResponse) :
    (send_request r).attempts ≤ 6 ∧
      ((∀ k, k < 6 → (r k).status_code ≠ 200) →
        send_request r = ⟨Except.error ((r 5).status_code, (r 5).text), 6, 1⟩) ∧
      (∀ k, k < 6 → (r k).status_code = 200 →
        (∀ j, j < k → (r j).status_code ≠ 200) →
        send_request r = ⟨Except.ok (r k).json, k + 1, 0⟩) := by
  refine ⟨?_, ?_, ?_⟩
  · by_cases h0 : (r 0).status_code = 200
    · simp [send_request, sra1, h0]
    by_cases h1 : (r 1).status_code = 200
    · simp [send_request, sra1, sra2, h0, h1]
    by_cases h2 : (r 2).status_code = 200
    · simp [send_request, sra1, sra2, sra3, h0, h1, h2]
    by_cases h3 : (r 3).status_code = 200
    · simp [send_request, sra1, sra2, sra3, sra4, h0, h1, h2, h3]
    by_cases h4 : (r 4).status_code = 200
    · simp [send_request, sra1, sra2, sra3, sra4, sra5, h0, h1, h2, h3, h4]
    by_cases h5 : (r 5).status_code = 200
    · simp [send_request, sra1, sra2, sra3, sra4, sra5, sra6, h0, h1, h2, h3, h4, h5]
    · simp [send_request, sra1, sra2, sra3, sra4, sra5, h0, h1, h2, h3, h4, h5]
  · intro hall
    have h0 := hall 0 (by omega)
    have h1 := hall 1 (by omega)
    have h2 := hall 2 (by omega)
    have h3 := hall 3 (by omega)
    have h4 := hall 4 (by omega)
    have h5 := hall 5 (by omega)
    simp [send_request, sra1, sra2, sra3, sra4, sra5, h0, h1, h2, h3, h4, h5]
  · intro k hk hsucc hprev
    interval_cases k
    · simp [send_request, sra1, hsucc]
    · have h0 := hprev 0 (by omega)
      simp [send_request, sra1, sra2, h0, hsucc]
    · have h0 := hprev 0 (by omega)
      have h1 := hprev 1 (by omega)
      simp [send_request, sra1, sra2, sra3, h0, h1, hsucc]
    · have h0 := hprev 0 (by omega)
      have h1 := hprev 1 (by omega)
      have h2 := hprev 2 (by omega)
      simp [send_request, sra1, sra2, sra3, sra4, h0, h1, h2, hsucc]
    · have h0 := hprev 0 (by omega)
      have h1 := hprev 1 (by omega)
      have h2 := hprev 2 (by omega)
      have h3 := hprev 3 (by omega)
      simp [send_request, sra1, sra2, sra3, sra4, sra5, h0, h1, h2, h3, hsucc]
    · have h0 := hprev 0 (by omega)
      have h1 := hprev 1 (by omega)
      have h2 := hprev 2 (by omega)
      have h3 := hprev 3 (by omega)
      have h4 := hprev 4 (by omega)
      simp [send_request, sra1, sra2, sra3, sra4, sra5, sra6, h0, h1, h2, h3, h4, hsucc]

/-- Witness for C3's amended theorem: on the always-failing response sequence
the loop makes 6 attempts, sends one alert and raises. -/
theorem send_request_retry_contract_witness :
    send_request failResponses =
      ⟨Except.error ((failResponses 5).status_code, (failResponses 5).text), 6, 1⟩ :=
  (send_request_retry_contract failResponses).2.1 (fun k _ => by norm_num [failResponses])

/-- C10: a site with zero available dates inside the window and a site with
dates but no qualifying run are indistinguishable in the result — both
contribute `false` to the availability count and the empty range list. -/
theorem siteRangesResult_unavailable_cases (dates : List Int) (nights : Int)
    (p : Nat × List Int)
    (h : p.2.filter (fun d => dates.contains d) = [] ∨
      consecutive_nights (p.2.filter (fun d => dates.contains d)) nights =
        Except.ok []) :
    siteRangesResult dates nights p = Except.ok (false, []) := by
  rcases h with h | h
  · unfold siteRangesResult
    rw [h]
    rfl
  · unfold siteRangesResult
    by_cases he : (p.2.filter (fun d => dates.contains d)).isEmpty
    · rw [if_pos he]
    · rw [if_neg he, h]
      rfl

/-- Witness for C10: one site with no date in the window, one site with a
date in the window but no run of the requested length; both yield the same
unavailable result. -/
theorem siteRangesResult_unavailable_cases_witness :
    siteRangesResult [739768] 1 (1, [739770]) = Except.ok (false, []) ∧
      siteRangesResult [739768, 739770] 2 (1, [739770]) = Except.ok (false, []) :=
  ⟨siteRangesResult_unavailable_cases [739768] 1 (1, [739770]) (Or.inl (by decide)),
    siteRangesResult_unavailable_cases [739768, 739770] 2 (1, [739770])
      (Or.inr (by decide))⟩

/-- Effect of one `setdefault`-append on a per-site lookup: the entry of `k`
grows by `v` (an absent `k` reads as `[]` before and `v` after), every other
site is untouched. -/
theorem lookup_setdefault_append (d : List (Nat × List Int)) (k : Nat) (v : List Int)
    (s : Nat) :
    lookupList s (setdefault_append d k v) =
      if k = s then lookupList s d ++ v else lookupList s d := by
  induction d with
  | nil =>
    by_cases hks : k = s <;> simp [setdefault_append, lookupList, hks]
  | cons p rest ih =>
    by_cases hpk : p.1 = k
    · by_cases hks : k = s
      · subst hks
        simp [setdefault_append, hpk, lookupList]
      · simp [setdefault_append, hpk, lookupList, hks, hpk.symm ▸ hks]
    · by_cases hps : p.1 = s
      · have hks : ¬ k = s := fun h => hpk (hps.trans h.symm)
        have hsk : ¬ s = k := fun h => hks h.symm
        simp [setdefault_append, hpk, lookupList, hps, hks, hsk]
      · simp [setdefault_append, hpk, lookupList, hps, ih]

/-- Per-site lookup through a fold of `setdefault`-appends over document
entries: the site's previous dates followed by the contributions, in order,
of every entry carrying its id. -/
theorem lookup_foldl_setdefault {α : Type} (f : Nat × α → List Int)
    (m : List (Nat × α)) (d : List (Nat × List Int)) (s : Nat) :
    lookupList s (m.foldl (fun acc p => setdefault_append acc p.1 (f p)) d) =
      lookupList s d ++ (m.filter (fun p => p.1 == s)).flatMap f := by
  induction m generalizing d with
  | nil => simp
  | cons p m ih =>
    simp only [List.foldl_cons, ih, lookup_setdefault_append, List.filter_cons]
    by_cases hps : p.1 = s
    · simp [hps]
    · simp [hps]

/-- Per-site lookup through one month of aggregation. -/
theorem lookup_processMonth (campsite_type : Option String)
    (d : List (Nat × List Int)) (m : MonthDoc) (s : Nat) :
    lookupList s (processMonth campsite_type d m) =
      lookupList s d ++ monthContrib campsite_type s m :=
  lookup_foldl_setdefault (fun p => availableDates campsite_type p.2) m d s

/-- Per-site lookup through the aggregation of a document sequence, starting
from an arbitrary accumulated dict. -/
theorem lookup_foldl_processMonth (campsite_type : Option String)
    (docs : List MonthDoc) (d : List (Nat × List Int)) (s : Nat) :
    lookupList s (docs.foldl (processMonth campsite_type) d) =
      lookupList s d ++ docs.flatMap (monthContrib campsite_type s) := by
  induction docs generalizing d with
  | nil => simp
  | cons m docs ih =>
    simp [List.foldl_cons, ih, lookup_processMonth, List.append_assoc]

/-- The aggregated available-date list of a site is the concatenation of its
monthly contributions, in document order. -/
theorem lookup_get_park_information (campsite_type : Option String)
    (docs : List MonthDoc) (s : Nat) :
    lookupList s (get_park_information campsite_type docs) =
      docs.flatMap (monthContrib campsite_type s) := by
  have h := lookup_foldl_processMonth campsite_type docs [] s
  simpa [get_park_information, lookupList] using h

/-- C8: merge associativity of aggregation — aggregating three monthly
documents in one call gives, for every site, exactly the dates obtained by
aggregating the first document alone, aggregating the remaining two alone,
and unioning the two results by site (list-level concatenation, hence also
equality of the per-site available-date sets). -/
theorem get_park_information_merge (campsite_type : Option String)
    (a b c : MonthDoc) (s : Nat) :
    lookupList s (get_park_information campsite_type [a, b, c]) =
      lookupList s (get_park_information campsite_type [a]) ++
        lookupList s (get_park_information campsite_type [b, c]) ∧
      (lookupList s (get_park_information campsite_type [a, b, c])).toFinset =
        (lookupList s (get_park_information campsite_type [a])).toFinset ∪
          (lookupList s (get_park_information campsite_type [b, c])).toFinset := by
  have h : lookupList s (get_park_information campsite_type [a, b, c]) =
      lookupList s (get_park_information campsite_type [a]) ++
        lookupList s (get_park_information campsite_type [b, c]) := by
    simp [lookup_get_park_information]
  exact ⟨h, by rw [h, List.toFinset_append]⟩

/-- `setdefault` adds the key at the end exactly when it is absent. -/
theorem keys_setdefault_append (d : List (Nat × List Int)) (k : Nat) (v : List Int) :
    (setdefault_append d k v).map Prod.fst =
      if k ∈ d.map Prod.fst then d.map Prod.fst else d.map Prod.fst ++ [k] := by
  induction d with
  | nil => simp [setdefault_append]
  | cons p rest ih =>
    by_cases hpk : p.1 = k
    · simp [setdefault_append, hpk]
    · have hkp : ¬ k = p.1 := fun h => hpk h.symm
      by_cases hk : k ∈ rest.map Prod.fst
      · simp [setdefault_append, hpk, ih, hk, hkp]
      · simp [setdefault_append, hpk, ih, hk, hkp]

/-- Key sequence of a fold of `setdefault`-appends: the previous keys
extended, in order, by the new keys not yet present. -/
theorem keys_foldl_setdefault {α : Type} (f : Nat × α → List Int)
    (m : List (Nat × α)) (d : List (Nat × List Int)) :
    (m.foldl (fun acc p => setdefault_append acc p.1 (f p)) d).map Prod.fst =
      mergeKeys (d.map Prod.fst) (m.map Prod.fst) := by
  induction m generalizing d with
  | nil => rfl
  | cons p m ih =>
    simp only [List.foldl_cons, List.map_cons, ih, keys_setdefault_append, mergeKeys,
      List.foldl_cons]

/-- Key sequence of the whole aggregation, starting from an arbitrary
accumulated dict. -/
theorem keys_foldl_processMonth (campsite_type : Option String)
    (docs : List MonthDoc) (d : List (Nat × List Int)) :
    (docs.foldl (processMonth campsite_type) d).map Prod.fst =
      mergeKeys (d.map Prod.fst) (docs.flatMap (fun m => m.map Prod.fst)) := by
  induction docs generalizing d with
  | nil => simp [mergeKeys]
  | cons m docs ih =>
    have hm : (processMonth campsite_type d m).map Prod.fst =
        mergeKeys (d.map Prod.fst) (m.map Prod.fst) :=
      keys_foldl_setdefault (fun p => availableDates campsite_type p.2) m d
    simp only [List.foldl_cons, List.flatMap_cons, ih, hm, mergeKeys, List.foldl_append]

/-- `mergeKeys` keeps the keys duplicate-free and realizes exactly the union
of the two key sets. -/
theorem mergeKeys_nodup_toFinset (l : List Nat) :
    ∀ ks : List Nat, ks.Nodup →
      (mergeKeys ks l).Nodup ∧ (mergeKeys ks l).toFinset = ks.toFinset ∪ l.toFinset := by
  induction l with
  | nil =>
    intro ks h
    simpa [mergeKeys] using h
  | cons k l ih =>
    intro ks h
    have hstep : mergeKeys ks (k :: l) = mergeKeys (if k ∈ ks then ks else ks ++ [k]) l := rfl
    by_cases hk : k ∈ ks
    · rw [hstep, if_pos hk]
      obtain ⟨h1, h2⟩ := ih ks h
      refine ⟨h1, ?_⟩
      rw [h2]
      ext x
      simp only [Finset.mem_union, List.mem_toFinset, List.toFinset_cons, Finset.mem_insert]
      constructor
      · rintro (hx | hx)
        · exact Or.inl hx
        · exact Or.inr (Or.inr hx)
      · rintro (hx | rfl | hx)
        · exact Or.inl hx
        · exact Or.inl hk
        · exact Or.inr hx
    · rw [hstep, if_neg hk]
      have hnd : (ks ++ [k]).Nodup := by
        rw [List.nodup_append]
        exact ⟨h, List.nodup_singleton k, by simpa using hk⟩
      obtain ⟨h1, h2⟩ := ih _ hnd
      refine ⟨h1, ?_⟩
      rw [h2]
      ext x
      simp only [Finset.mem_union, List.mem_toFinset, List.toFinset_cons, Finset.mem_insert,
        List.mem_append, List.mem_singleton]
      tauto

/-- The dict produced by `get_park_information` has one entry per distinct
site id seen across the fetched documents: its length is the cardinality of
the set of all site ids, including sites with no retained dates. -/
theorem length_get_park_information (campsite_type : Option String)
    (docs : List MonthDoc) :
    (get_park_information campsite_type docs).length =
      (docs.flatMap (fun m => m.map Prod.fst)).toFinset.card := by
  have hkeys : (get_park_information campsite_type docs).map Prod.fst =
      mergeKeys [] (docs.flatMap (fun m => m.map Prod.fst)) := by
    have h := keys_foldl_processMonth campsite_type docs []
    simpa [get_park_information] using h
  obtain ⟨h1, h2⟩ :=
    mergeKeys_nodup_toFinset (docs.flatMap (fun m => m.map Prod.fst)) [] (by simp)
  have hlen : (get_park_information campsite_type docs).length =
      (mergeKeys [] (docs.flatMap (fun m => m.map Prod.fst))).length := by
    rw [← hkeys, List.length_map]
  rw [hlen, ← List.toFinset_card_of_nodup h1, h2]
  simp

/-- The per-site fold returns, on success, the number of processed sites that
qualified (counted by `siteQualifiesB`) on top of the incoming accumulator. -/
theorem sitesFold_count (dates : List Int) (n : Int) :
    ∀ (l : List (Nat × List Int)) (acc : Nat × List (Nat × Int × Int))
      (res : Nat × List (Nat × Int × Int)),
      sitesFold dates n l acc = Except.ok res →
      res.1 = acc.1 + l.countP (fun p => siteQualifiesB dates n p) := by
  intro l
  induction l with
  | nil =>
    intro acc res h
    simp only [sitesFold] at h
    cases h
    simp
  | cons p l ih =>
    intro acc res h
    cases hsr : siteRangesResult dates n p with
    | error e =>
      rw [sitesFold, hsr] at h
      cases h
    | ok qr =>
      obtain ⟨q, rs⟩ := qr
      rw [sitesFold, hsr] at h
      have hres := ih _ _ h
      have hq : siteQualifiesB dates n p = q := by
        simp [siteQualifiesB, hsr]
      rw [hres, List.countP_cons, hq]
      cases q <;> simp <;> omega

/-- C9: on a successful run, `total_site_count` equals the number of distinct
site ids appearing in any fetched monthly document (sites with no available
dates and type-filtered sites included), and `available_site_count` counts
exactly the sites with at least one qualifying range. -/
theorem get_num_available_sites_counts (campsite_type : Option String)
    (docs : List MonthDoc) (start_date end_date : Int) (nights : Option Int)
    (num maxi : Nat) (rngs : List (Nat × Int × Int))
    (hok : get_num_available_sites (get_park_information campsite_type docs)
      start_date end_date nights = Except.ok (num, maxi, rngs)) :
    maxi = (docs.flatMap (fun m => m.map Prod.fst)).toFinset.card ∧
      num = (get_park_information campsite_type docs).countP
        (fun p => siteQualifiesB (windowDates start_date end_date)
          (effectiveNights nights (end_date - start_date)) p) := by
  unfold get_num_available_sites at hok
  cases hfold : sitesFold (windowDates start_date end_date)
      (effectiveNights nights (end_date - start_date))
      (get_park_information campsite_type docs) (0, []) with
  | error e =>
    rw [hfold] at hok
    cases hok
  | ok acc =>
    rw [hfold] at hok
    simp only [Except.map] at hok
    cases hok
    constructor
    · exact length_get_park_information campsite_type docs
    · have h := sitesFold_count (windowDates start_date end_date)
        (effectiveNights nights (end_date - start_date))
        (get_park_information campsite_type docs) (0, []) acc hfold
      simpa using h

/-- Witness for C9 on a one-month, one-site document set: one site seen, one
site with a qualifying range. -/
theorem get_num_available_sites_counts_witness :
    (1 : Nat) = (docsEx.flatMap (fun m => m.map Prod.fst)).toFinset.card ∧
      (1 : Nat) = (get_park_information none docsEx).countP
        (fun p => siteQualifiesB (windowDates 739768 739770)
          (effectiveNights (some 1) (739770 - 739768)) p) :=
  get_num_available_sites_counts none docsEx 739768 739770 (some 1) 1 1
    [(1, 739768, 739769)] (by decide)
